import Mathlib

/-!
Verification of the aegisquant-core backtest engine against its
natural-language specification.  The Rust sources are shallowly embedded:
f64 values are modelled as rationals (ℚ); an f64 that may be NaN or
infinite is modelled as `Option ℚ` with `none` standing for any
non-finite value (all non-finite inputs take the same rejection branch
in the code, so the collapse is observation-preserving); i64 values are
modelled as `Int`, u64 counters as `Nat`.
-/

namespace AegisQuant

/-- A market tick (src/aegisquant-core/src/types.rs, struct Tick).
Emitted prices and volumes are rationals, hence finite by construction. -/
structure Tick where
  timestamp : Int
  price : ℚ
  volume : ℚ
deriving DecidableEq, Repr

/-- Data quality report (src/aegisquant-core/src/types.rs, struct DataQualityReport). -/
structure DataQualityReport where
  total_ticks : Int
  valid_ticks : Int
  invalid_ticks : Int
  anomaly_ticks : Int
  first_timestamp : Int
  last_timestamp : Int
deriving DecidableEq, Repr

/-- Result of the cleansing pass (src/aegisquant-core/src/data_loader.rs, struct CleansingResult). -/
structure CleansingResult where
  ticks : List Tick
  report : DataQualityReport
  anomaly_indices : List Nat
deriving DecidableEq, Repr

/-- The only error variant `load_from_vectors` can produce
(src/aegisquant-core/src/error.rs via data_loader.rs). -/
inductive EngineErr where
  | validationError
  | engineNotInit
deriving DecidableEq, Repr

/-- Timestamp-order rejection test: the Rust code rejects a tick whose
timestamp is `≤` the previous appended timestamp (data_loader.rs line 368-373). -/
def tsStale (prevTs : Option Int) (ts : Int) : Bool :=
  match prevTs with
  | some pt => decide (ts ≤ pt)
  | none => false

/-- Absolute value as computed by f64::abs, written so that it evaluates
by kernel reduction. -/
def fabs (x : ℚ) : ℚ := if x < 0 then -x else x

/-- Anomaly test against the previously appended price
(data_loader.rs lines 376-385): change percentage strictly above the threshold. -/
def isAnomalyB (thr : ℚ) (prevP : Option ℚ) (p : ℚ) : Bool :=
  match prevP with
  | some pp => if 0 < pp then decide (thr < fabs ((p - pp) / pp)) else false
  | none => false

/-- Accumulated loop state of the cleansing pass in `load_from_vectors`. -/
structure CState where
  ticks : List Tick
  invalid : Int
  anomaly : Int
  anomIdx : List Nat
deriving DecidableEq, Repr

/-- Bump the invalid counter and skip the tick (the `continue` branches). -/
def CState.addInvalid (s : CState) : CState := { s with invalid := s.invalid + 1 }

/-- The per-tick loop of `DataLoader::load_from_vectors`
(src/aegisquant-core/src/data_loader.rs lines 350-400), processing rows
`(timestamp, price, volume)` from index `i`, carrying the previous appended
timestamp and price.  An `Option ℚ` input that is `none` (non-finite f64)
takes the corresponding invalid branch, exactly as `!is_finite()` does. -/
def cleanseStep (thr : ℚ) : Nat → Option Int → Option ℚ →
    List (Int × Option ℚ × Option ℚ) → CState
  | _, _, _, [] => ⟨[], 0, 0, []⟩
  | i, prevTs, prevP, (ts, pr, vol) :: rest =>
    match pr, vol with
    | some p, some v =>
      if p ≤ 0 then (cleanseStep thr (i + 1) prevTs prevP rest).addInvalid
      else if v < 0 then (cleanseStep thr (i + 1) prevTs prevP rest).addInvalid
      else if tsStale prevTs ts then (cleanseStep thr (i + 1) prevTs prevP rest).addInvalid
      else
        let anom := isAnomalyB thr prevP p
        let r := cleanseStep thr (i + 1) (some ts) (some p) rest
        { ticks := ⟨ts, p, v⟩ :: r.ticks,
          invalid := r.invalid,
          anomaly := (if anom then 1 else 0) + r.anomaly,
          anomIdx := if anom then i :: r.anomIdx else r.anomIdx }
    | _, _ => (cleanseStep thr (i + 1) prevTs prevP rest).addInvalid

/-- `DataLoader::load_from_vectors` (data_loader.rs lines 321-416): length and
emptiness validation, then the cleansing loop, then the quality report. -/
def loadFromVectors (thr : ℚ) (timestamps : List Int)
    (prices volumes : List (Option ℚ)) : Except EngineErr CleansingResult :=
  if timestamps.length ≠ prices.length ∨ prices.length ≠ volumes.length then
    .error .validationError
  else if timestamps.isEmpty then
    .error .validationError
  else
    let rows := timestamps.zip (prices.zip volumes)
    let s := cleanseStep thr 0 none none rows
    .ok
      { ticks := s.ticks
        report :=
          { total_ticks := timestamps.length
            valid_ticks := s.ticks.length
            invalid_ticks := s.invalid
            anomaly_ticks := s.anomaly
            first_timestamp := timestamps.headD 0
            last_timestamp := timestamps.getLastD 0 }
        anomaly_indices := s.anomIdx }

/-- Spec-side description of which input rows survive cleansing, with their
input indices: positive finite price, non-negative finite volume, timestamp
strictly above the previous surviving one (spec section 4.2, per-tick
rejection rules). -/
def survivorsSpec : Nat → Option Int → List (Int × Option ℚ × Option ℚ) →
    List (Nat × Tick)
  | _, _, [] => []
  | i, prevTs, (ts, pr, vol) :: rest =>
    match pr, vol with
    | some p, some v =>
      if 0 < p ∧ 0 ≤ v ∧ tsStale prevTs ts = false then
        (i, ⟨ts, p, v⟩) :: survivorsSpec (i + 1) (some ts) rest
      else survivorsSpec (i + 1) prevTs rest
    | _, _ => survivorsSpec (i + 1) prevTs rest

/-- Spec-side anomaly indices for a survivor list, comparing each survivor
against the price of the previous survivor with the claim's formula
`|p_i − p_prev| / p_prev > threshold`. -/
def anomalyChain (thr : ℚ) : ℚ → List (Nat × Tick) → List Nat
  | _, [] => []
  | pp, (i, t) :: rest =>
    if thr < |t.price - pp| / pp then i :: anomalyChain thr t.price rest
    else anomalyChain thr t.price rest

/-- Spec-side anomaly indices of a survivor list: the first survivor is never
an anomaly, later ones are flagged by `anomalyChain`. -/
def anomalySpec (thr : ℚ) : List (Nat × Tick) → List Nat
  | [] => []
  | (_, t) :: rest => anomalyChain thr t.price rest

/-- Direction constant Buy = 1 (src/aegisquant-core/src/types.rs line 290). -/
def DIRECTION_BUY : Int := 1

/-- Direction constant Sell = -1 (src/aegisquant-core/src/types.rs line 291). -/
def DIRECTION_SELL : Int := -1

/-- An order request (src/aegisquant-core/src/types.rs, struct OrderRequest).
The fixed 16-byte symbol is modelled as a plain string. -/
structure OrderRequest where
  symbol : String
  quantity : ℚ
  direction : Int
  order_type : Int
  limit_price : ℚ
deriving DecidableEq, Repr

/-- An order fill (src/aegisquant-core/src/gateway.rs, struct Fill). -/
structure Fill where
  order_id : Nat
  symbol : String
  quantity : ℚ
  price : ℚ
  commission : ℚ
  direction : Int
  timestamp : Int
deriving DecidableEq, Repr

/-- Internal position bookkeeping (gateway.rs, struct PositionInternal). -/
structure PositionInternal where
  symbol : String
  quantity : ℚ
  average_price : ℚ
  realized_pnl : ℚ
deriving DecidableEq, Repr

/-- Exported account status (src/aegisquant-core/src/types.rs, struct AccountStatus). -/
structure AccountStatus where
  balance : ℚ
  equity : ℚ
  available : ℚ
  position_count : Nat
  total_pnl : ℚ
deriving DecidableEq, Repr

/-- Gateway error variants (gateway.rs, enum GatewayError); string payloads dropped. -/
inductive GatewayError where
  | orderNotFound (id : Nat)
  | invalidOrder
  | insufficientFunds
  | notConnected
deriving DecidableEq, Repr

/-- Lookup in an association list modelling a `HashMap<String, f64>`. -/
def lookupA (m : List (String × ℚ)) (k : String) : Option ℚ :=
  (m.find? (fun e => e.1 == k)).map (·.2)

/-- Insert into an association list modelling `HashMap::insert` (replace or append). -/
def insertA (m : List (String × ℚ)) (k : String) (v : ℚ) : List (String × ℚ) :=
  if m.any (fun e => e.1 == k) then
    m.map (fun e => if e.1 == k then (k, v) else e)
  else m ++ [(k, v)]

/-- Lookup a position by symbol, modelling `HashMap<String, PositionInternal>::get`. -/
def getPos (ps : List PositionInternal) (sym : String) : Option PositionInternal :=
  ps.find? (fun p => p.symbol == sym)

/-- Replace-or-append a position, modelling the in-place update after
`HashMap::entry(symbol).or_insert(...)`. -/
def setPos (ps : List PositionInternal) (p : PositionInternal) : List PositionInternal :=
  if ps.any (fun q => q.symbol == p.symbol) then
    ps.map (fun q => if q.symbol == p.symbol then p else q)
  else ps ++ [p]

/-- State of the simple simulated gateway (gateway.rs, struct SimulatedGateway).
The two hash maps are association lists. -/
structure SimGateway where
  slippage : ℚ
  commission_rate : ℚ
  current_prices : List (String × ℚ)
  positions : List PositionInternal
  balance : ℚ
  initial_balance : ℚ
  next_order_id : Nat
  pending_fills : List Fill
  current_timestamp : Int
deriving DecidableEq, Repr

/-- `SimulatedGateway::calculate_fill_price` (gateway.rs lines 174-181). -/
def calculateFillPrice (g : SimGateway) (base_price : ℚ) (direction : Int) : ℚ :=
  let slippage_amount := base_price * g.slippage
  if direction = DIRECTION_BUY then base_price + slippage_amount
  else base_price - slippage_amount

/-- `SimulatedGateway::calculate_commission` (gateway.rs lines 184-186). -/
def calculateCommission (g : SimGateway) (trade_value : ℚ) : ℚ :=
  trade_value * g.commission_rate

/-- Position mutation for a Buy fill (gateway.rs lines 270-291): average up a
long, realize P&L when covering a short, reset the average on a sign flip. -/
def buyUpdate (pos : PositionInternal) (fill_price qty : ℚ) : PositionInternal :=
  let new_quantity := pos.quantity + qty
  if 0 < pos.quantity then
    { pos with
      average_price :=
        (pos.average_price * pos.quantity + fill_price * qty) / new_quantity,
      quantity := new_quantity }
  else if pos.quantity < 0 then
    let cover_quantity := min qty (-pos.quantity)
    let pnl := (pos.average_price - fill_price) * cover_quantity
    { pos with
      realized_pnl := pos.realized_pnl + pnl,
      average_price := if -pos.quantity < qty then fill_price else pos.average_price,
      quantity := new_quantity }
  else
    { pos with average_price := fill_price, quantity := new_quantity }

/-- Position mutation for a Sell fill (gateway.rs lines 292-313), symmetric. -/
def sellUpdate (pos : PositionInternal) (fill_price qty : ℚ) : PositionInternal :=
  let new_quantity := pos.quantity - qty
  if 0 < pos.quantity then
    let close_quantity := min qty pos.quantity
    let pnl := (fill_price - pos.average_price) * close_quantity
    { pos with
      realized_pnl := pos.realized_pnl + pnl,
      average_price := if pos.quantity < qty then fill_price else pos.average_price,
      quantity := new_quantity }
  else if pos.quantity < 0 then
    { pos with
      average_price :=
        (pos.average_price * (-pos.quantity) + fill_price * qty) / (-new_quantity),
      quantity := new_quantity }
  else
    { pos with average_price := fill_price, quantity := new_quantity }

/-- `SimulatedGateway::submit_order` (gateway.rs lines 228-332), as a state
transformer: the state is returned unchanged alongside an error exactly where
the Rust method early-returns before any mutation. -/
def submitOrder (g : SimGateway) (order : OrderRequest) (current_price : ℚ) :
    Except GatewayError Nat × SimGateway :=
  if order.quantity ≤ 0 then (.error .invalidOrder, g)
  else if order.direction ≠ DIRECTION_BUY ∧ order.direction ≠ DIRECTION_SELL then
    (.error .invalidOrder, g)
  else
    let fill_price := calculateFillPrice g current_price order.direction
    let trade_value := order.quantity * fill_price
    let commission := calculateCommission g trade_value
    let current_position := ((getPos g.positions order.symbol).map (·.quantity)).getD 0
    if order.direction = DIRECTION_BUY ∧ 0 ≤ current_position ∧
        g.balance < trade_value + commission then
      (.error .insufficientFunds, g)
    else
      let order_id := g.next_order_id
      let pos0 := (getPos g.positions order.symbol).getD ⟨order.symbol, 0, 0, 0⟩
      let pos1 := if order.direction = DIRECTION_BUY then
          buyUpdate pos0 fill_price order.quantity
        else sellUpdate pos0 fill_price order.quantity
      let balance1 := if order.direction = DIRECTION_BUY then
          g.balance - (trade_value + commission)
        else g.balance + (trade_value - commission)
      let fill : Fill :=
        ⟨order_id, order.symbol, order.quantity, fill_price, commission,
          order.direction, g.current_timestamp⟩
      (.ok order_id,
        { g with
          next_order_id := g.next_order_id + 1,
          positions := setPos g.positions pos1,
          balance := balance1,
          current_prices := insertA g.current_prices order.symbol current_price,
          pending_fills := g.pending_fills ++ [fill] })

/-- `SimulatedGateway::calculate_unrealized_pnl` (gateway.rs lines 189-195):
`(current_price - average_price) * quantity` when a price is known, else 0. -/
def calcUnrealized (prices : List (String × ℚ)) (p : PositionInternal) : ℚ :=
  ((lookupA prices p.symbol).map
    (fun current_price => (current_price - p.average_price) * p.quantity)).getD 0

/-- `SimulatedGateway::total_unrealized_pnl` (gateway.rs lines 198-203). -/
def totalUnrealized (g : SimGateway) : ℚ :=
  (g.positions.map (calcUnrealized g.current_prices)).sum

/-- `SimulatedGateway::total_realized_pnl` (gateway.rs lines 206-208). -/
def totalRealized (g : SimGateway) : ℚ :=
  (g.positions.map (·.realized_pnl)).sum

/-- `SimulatedGateway::query_account` (gateway.rs lines 350-362).
Note the position-count cutoff in the source is the literal 0.0001, not
QUANTITY_EPSILON. -/
def queryAccount (g : SimGateway) : AccountStatus :=
  let unrealized_pnl := totalUnrealized g
  let realized_pnl := totalRealized g
  { balance := g.balance,
    equity := g.balance + unrealized_pnl,
    available := g.balance,
    position_count := (g.positions.filter (fun p => 1 / 10000 < fabs p.quantity)).length,
    total_pnl := realized_pnl + unrealized_pnl }

/-- `SimulatedGateway::update_price` (gateway.rs lines 368-370). -/
def updatePrice (g : SimGateway) (symbol : String) (price : ℚ) : SimGateway :=
  { g with current_prices := insertA g.current_prices symbol price }

/-- `SimulatedGateway::set_timestamp` (gateway.rs lines 169-171). -/
def setTimestamp (g : SimGateway) (timestamp : Int) : SimGateway :=
  { g with current_timestamp := timestamp }

/-- `SimulatedGateway::get_fills` (gateway.rs lines 364-366): drain pending fills. -/
def getFills (g : SimGateway) : List Fill × SimGateway :=
  (g.pending_fills, { g with pending_fills := [] })

/-- `SimulatedGateway::query_position` (gateway.rs lines 339-348), reduced to
the realized-pnl component used by the engine loop. -/
def queryPositionRealized (g : SimGateway) (symbol : String) : Option ℚ :=
  (getPos g.positions symbol).map (·.realized_pnl)

/-- The fresh-gateway constructor `SimulatedGateway::new` (gateway.rs lines 154-166). -/
def mkSimGateway (initial_balance slippage commission_rate : ℚ) : SimGateway :=
  ⟨slippage, commission_rate, [], [], initial_balance, initial_balance, 1, [], 0⟩

/-- One price level of the order book (src/aegisquant-core/src/orderbook.rs,
struct OrderBookLevel); a level is empty when `quantity ≤ 0`. -/
structure OrderBookLevel where
  price : ℚ
  quantity : ℚ
  order_count : Int
deriving DecidableEq, Repr

/-- Slippage model of the L1 gateway (src/aegisquant-core/src/l1_gateway.rs,
struct SlippageModel). -/
structure SlippageModel where
  base_slippage : ℚ
  impact_factor : ℚ
  max_slippage : ℚ
deriving DecidableEq, Repr

/-- `SlippageModel::calculate` (l1_gateway.rs lines 79-82). -/
def SlippageModel.calc (m : SlippageModel) (quantity : ℚ) : ℚ :=
  min (m.base_slippage + m.impact_factor * quantity) m.max_slippage

/-- Fill at one price level (l1_gateway.rs, struct LevelFill). -/
structure LevelFill where
  price : ℚ
  quantity : ℚ
  level : Nat
deriving DecidableEq, Repr

/-- Result of one L1 execution (l1_gateway.rs, struct FillResult). -/
structure FillResult where
  fills : List LevelFill
  unfilled : ℚ
  average_price : ℚ
  filled_quantity : ℚ
deriving DecidableEq, Repr

/-- State of the L1 simulated gateway (l1_gateway.rs, struct L1SimulatedGateway).
The counted slices `bids[..bid_count]` and `asks[..ask_count]` of the fixed
capacity-10 arrays are modelled directly as lists; `fill_ratio` is `fillRat`. -/
structure L1Gateway where
  asks : List OrderBookLevel
  bids : List OrderBookLevel
  slippage_model : SlippageModel
  commission_rate : ℚ
  fillRat : ℚ
  current_prices : List (String × ℚ)
  positions : List PositionInternal
  balance : ℚ
  initial_balance : ℚ
  next_order_id : Nat
  pending_fills : List Fill
  current_timestamp : Int
deriving DecidableEq, Repr

/-- The level-walking loop of `L1SimulatedGateway::execute_order`
(l1_gateway.rs lines 210-235): break on exhausted remaining quantity or an
empty level, otherwise fill `min remaining (quantity * fill_ratio)` at the
level price adjusted by the computed slippage, accumulating the fills, the
final remaining quantity and the total cost. -/
def execLoop (sm : SlippageModel) (ratio : ℚ) (dir : Int) :
    Nat → ℚ → List OrderBookLevel → List LevelFill × ℚ × ℚ
  | _, remaining, [] => ([], remaining, 0)
  | idx, remaining, lvl :: rest =>
    if remaining ≤ 0 ∨ lvl.quantity ≤ 0 then ([], remaining, 0)
    else
      let available := lvl.quantity * ratio
      let fill_qty := min remaining available
      let slippage := sm.calc fill_qty
      let fill_price := if dir = DIRECTION_BUY then lvl.price * (1 + slippage)
        else lvl.price * (1 - slippage)
      let r := execLoop sm ratio dir (idx + 1) (remaining - fill_qty) rest
      (⟨fill_price, fill_qty, idx⟩ :: r.1, r.2.1, fill_price * fill_qty + r.2.2)

/-- `L1SimulatedGateway::execute_order` (l1_gateway.rs lines 196-250). -/
def executeOrder (g : L1Gateway) (order : OrderRequest) : FillResult :=
  let levels := if order.direction = DIRECTION_BUY then g.asks else g.bids
  let r := execLoop g.slippage_model g.fillRat order.direction 0 order.quantity levels
  let filled_quantity := order.quantity - r.2.1
  { fills := r.1,
    unfilled := r.2.1,
    average_price := if 0 < filled_quantity then r.2.2 / filled_quantity else 0,
    filled_quantity := filled_quantity }

/-- `L1SimulatedGateway::submit_order` (l1_gateway.rs lines 287-391): validate,
execute against the book (falling back to a simple fill at the current price
when nothing filled), check funds on a buy, then update position, balance,
price map and pending fills. -/
def l1SubmitOrder (g : L1Gateway) (order : OrderRequest) (current_price : ℚ) :
    Except GatewayError Nat × L1Gateway :=
  if order.quantity ≤ 0 then (.error .invalidOrder, g)
  else if order.direction ≠ DIRECTION_BUY ∧ order.direction ≠ DIRECTION_SELL then
    (.error .invalidOrder, g)
  else
    let fill_result := executeOrder g order
    let fp_fq : ℚ × ℚ :=
      if 0 < fill_result.filled_quantity then
        (fill_result.average_price, fill_result.filled_quantity)
      else
        let slippage := g.slippage_model.calc order.quantity
        let price := if order.direction = DIRECTION_BUY then
            current_price * (1 + slippage)
          else current_price * (1 - slippage)
        (price, order.quantity)
    let fill_price := fp_fq.1
    let fill_quantity := fp_fq.2
    let trade_value := fill_quantity * fill_price
    let commission := trade_value * g.commission_rate
    let current_position := ((getPos g.positions order.symbol).map (·.quantity)).getD 0
    if order.direction = DIRECTION_BUY ∧ 0 ≤ current_position ∧
        g.balance < trade_value + commission then
      (.error .insufficientFunds, g)
    else
      let order_id := g.next_order_id
      let pos0 := (getPos g.positions order.symbol).getD ⟨order.symbol, 0, 0, 0⟩
      let pos1 := if order.direction = DIRECTION_BUY then
          buyUpdate pos0 fill_price fill_quantity
        else sellUpdate pos0 fill_price fill_quantity
      let balance1 := if order.direction = DIRECTION_BUY then
          g.balance - (trade_value + commission)
        else g.balance + (trade_value - commission)
      let fill : Fill :=
        ⟨order_id, order.symbol, fill_quantity, fill_price, commission,
          order.direction, g.current_timestamp⟩
      (.ok order_id,
        { g with
          next_order_id := g.next_order_id + 1,
          positions := setPos g.positions pos1,
          balance := balance1,
          current_prices := insertA g.current_prices order.symbol current_price,
          pending_fills := g.pending_fills ++ [fill] })

/-- Concrete L1 gateway whose ask side has an empty level in front of a deep
level: refutes the original reading of C5. -/
def l1CexGw : L1Gateway :=
  ⟨[⟨100, 0, 1⟩, ⟨101, 10, 1⟩], [], ⟨0, 0, 0⟩, 0, 1/2, [], [], 100000, 100000, 1, [], 0⟩

/-- Concrete L1 gateway with the two-level ask book of the Rust unit tests. -/
def l1WitGw : L1Gateway :=
  ⟨[⟨101, 100, 10⟩, ⟨102, 200, 20⟩], [], ⟨0, 0, 0⟩, 0, 1/2, [], [], 100000, 100000, 1, [], 0⟩

/-- Risk configuration (src/aegisquant-core/src/types.rs, struct RiskConfig). -/
structure RiskConfig where
  max_order_rate : Int
  max_position_size : ℚ
  max_order_value : ℚ
  max_drawdown_pct : ℚ
deriving DecidableEq, Repr

/-- Risk rejection reasons (src/aegisquant-core/src/risk.rs, enum RiskError). -/
inductive RiskErr where
  | insufficientCapital (required available : ℚ)
  | throttleExceeded (current max : Int)
  | positionLimitExceeded (current order max : ℚ)
  | maxDrawdownExceeded (current max : ℚ)
deriving DecidableEq, Repr

/-- The front-eviction loop of `RiskManager::check_throttle` (risk.rs lines
148-154): pop timestamps from the front while they are older than the cutoff.
Time is modelled in seconds as a rational; an `Instant` is its offset from an
arbitrary origin. -/
def evictOld (cutoff : ℚ) : List ℚ → List ℚ
  | [] => []
  | t :: rest => if t < cutoff then evictOld cutoff rest else t :: rest

/-- `RiskManager::check_throttle` (risk.rs lines 143-169) with the clock
reading `Instant::now()` passed explicitly: evict entries older than one
second, reject with ThrottleExceeded when the window already holds
`max_order_rate` entries (recording nothing), otherwise append `now`. -/
def checkThrottle (maxRate : Int) (q : List ℚ) (now : ℚ) :
    Except RiskErr Unit × List ℚ :=
  let q1 := evictOld (now - 1) q
  let current_rate : Int := q1.length
  if maxRate ≤ current_rate then
    (.error (.throttleExceeded current_rate maxRate), q1)
  else
    (.ok (), q1 ++ [now])

/-- Repeated throttle checks at the given call instants, starting from queue
`q`; `some q1` means every call succeeded and left queue `q1`. -/
def throttleSeq (maxRate : Int) : List ℚ → List ℚ → Option (List ℚ)
  | q, [] => some q
  | q, t :: rest =>
    match checkThrottle maxRate q t with
    | (.ok _, q1) => throttleSeq maxRate q1 rest
    | (.error _, _) => none

/-- A scheduled timer (src/aegisquant-core/src/event_bus.rs, struct TimerEntry). -/
structure TimerEntry where
  id : Nat
  interval_ms : Nat
  next_trigger_ms : Int
  active : Bool
  repeating : Bool
deriving DecidableEq, Repr

/-- `TimerEntry::should_fire` (event_bus.rs lines 637-639). -/
def TimerEntry.shouldFire (t : TimerEntry) (current_ms : Int) : Bool :=
  t.active && decide (t.next_trigger_ms ≤ current_ms)

/-- `TimerEntry::advance` (event_bus.rs lines 642-648): a repeating timer with
positive interval moves its next trigger forward, anything else deactivates. -/
def TimerEntry.advance (t : TimerEntry) : TimerEntry :=
  if t.repeating ∧ 0 < t.interval_ms then
    { t with next_trigger_ms := t.next_trigger_ms + (t.interval_ms : Int) }
  else { t with active := false }

/-- The payload of `Event::timer(id, ts)` (event_bus.rs line 712). -/
structure TimerEvent where
  id : Nat
  ts : Int
deriving DecidableEq, Repr

/-- Timer manager state (event_bus.rs, struct TimerManager). -/
structure TimerManager where
  timers : List TimerEntry
  current_time_ms : Int
deriving DecidableEq, Repr

/-- The firing loop of `TimerManager::process` (event_bus.rs lines 710-715):
for each timer in order, emit an event and advance it when due. -/
def processLoop (current_ms : Int) : List TimerEntry → List TimerEvent × List TimerEntry
  | [] => ([], [])
  | t :: rest =>
    let r := processLoop current_ms rest
    if t.shouldFire current_ms then (⟨t.id, current_ms⟩ :: r.1, t.advance :: r.2)
    else (r.1, t :: r.2)

/-- `TimerManager::process` (event_bus.rs lines 706-721): set the time, fire
due timers, then retain only the still-active entries. -/
def TimerManager.process (m : TimerManager) (current_ms : Int) :
    List TimerEvent × TimerManager :=
  let r := processLoop current_ms m.timers
  (r.1, ⟨r.2.filter (·.active), current_ms⟩)

/-- `TimerManager::schedule_repeating` (event_bus.rs lines 688-693) with the
freshly drawn global timer id passed explicitly: first trigger at
now + interval (see TimerEntry::repeating, lines 626-634). -/
def TimerManager.schedRepeating (m : TimerManager) (id : Nat) (interval_ms : Nat) :
    TimerManager :=
  { m with timers :=
      m.timers ++ [⟨id, interval_ms, m.current_time_ms + (interval_ms : Int), true, true⟩] }

/-- `TimerManager::cancel` (event_bus.rs lines 696-703): mark the entry inactive. -/
def TimerManager.cancel (m : TimerManager) (timer_id : Nat) : TimerManager :=
  { m with timers :=
      m.timers.map (fun t => if t.id = timer_id then { t with active := false } else t) }

/-- Warmup manager (src/aegisquant-core/src/warmup.rs, struct WarmupManager). -/
structure WarmupManager where
  warmup_bars : Nat
  current_bar : Nat
  is_warmed_up : Bool
  warmup_complete_timestamp : Option Int
deriving DecidableEq, Repr

/-- `WarmupManager::new` (warmup.rs lines 46-54): clamps negative bar counts
to zero; zero bars means instantly warmed up. -/
def WarmupManager.mkNew (warmup_bars : Int) : WarmupManager :=
  let wb := warmup_bars.toNat
  ⟨wb, 0, wb = 0, if wb = 0 then some 0 else none⟩

/-- `WarmupManager::tick` (warmup.rs lines 63-81). -/
def WarmupManager.tick (m : WarmupManager) (timestamp : Int) : Bool × WarmupManager :=
  if m.is_warmed_up then (true, m)
  else
    let cb := m.current_bar + 1
    if m.warmup_bars ≤ cb then
      (true,
        { m with current_bar := cb, is_warmed_up := true,
                 warmup_complete_timestamp := some timestamp })
    else (false, { m with current_bar := cb })

/-- `WarmupManager::actual_start_bar` (warmup.rs lines 119-122). -/
def WarmupManager.actualStartBar (m : WarmupManager) : Nat := m.warmup_bars

/-- Strategy parameters (src/aegisquant-core/src/types.rs, struct StrategyParams). -/
structure StrategyParams where
  short_ma_period : Int
  long_ma_period : Int
  position_size : ℚ
  stop_loss_pct : ℚ
  take_profit_pct : ℚ
  warmup_bars : Int
deriving DecidableEq, Repr

/-- Strategy signal (strategy module enum Signal: None, Buy, Sell). -/
inductive Signal where
  | nosig
  | buy
  | sell
deriving DecidableEq, Repr

/-- Modelled from the spec: struct `DualMAStrategy` lives in
src/aegisquant-core/src/strategy.rs, which lib.rs declares but which is not
under src/; its state per spec section 4.4 is a rolling window of closing
prices (most recent first here) plus the previous (short_ma, long_ma) pair. -/
structure DualMAStrategy where
  params : StrategyParams
  window : List ℚ
  prevPair : Option (ℚ × ℚ)
deriving DecidableEq, Repr

/-- Arithmetic mean of the most recent k window entries. -/
def maOf (window : List ℚ) (k : Nat) : ℚ := (window.take k).sum / (k : ℚ)

/-- Modelled from the spec: `DualMAStrategy::on_tick` (strategy.rs, missing
from src/), following spec section 4.4: append the price; with fewer than
long_ma_period samples emit None; otherwise emit Buy on a golden cross
(previous short ≤ long, current short > long), Sell on a death cross, else
None, and store the current pair as the previous pair. -/
def DualMAStrategy.onTick (s : DualMAStrategy) (tick : Tick) : Signal × DualMAStrategy :=
  let w := tick.price :: s.window
  if (w.length : Int) < s.params.long_ma_period then
    (.nosig, { s with window := w })
  else
    let cS := maOf w s.params.short_ma_period.toNat
    let cL := maOf w s.params.long_ma_period.toNat
    let sig := match s.prevPair with
      | some (pS, pL) =>
        if pS ≤ pL ∧ cL < cS then Signal.buy
        else if pL ≤ pS ∧ cS < cL then Signal.sell
        else Signal.nosig
      | none => Signal.nosig
    (sig, { s with window := w, prevPair := some (cS, cL) })

/-- Modelled from the spec: `DualMAStrategy::generate_order` (strategy.rs,
missing from src/), spec section 4.4: a Buy signal yields a Market order of
quantity position_size with direction +1, a Sell signal direction -1. -/
def generateOrder (sig : Signal) (symbol : String) (params : StrategyParams)
    (price : ℚ) : Option OrderRequest :=
  match sig with
  | .buy => some ⟨symbol, params.position_size, DIRECTION_BUY, 0, price⟩
  | .sell => some ⟨symbol, params.position_size, DIRECTION_SELL, 0, price⟩
  | .nosig => none

/-- Modelled from the spec: `DualMAStrategy::reset` clears the rolling buffer
and the previous pair (spec section 4.4). -/
def DualMAStrategy.reset (s : DualMAStrategy) : DualMAStrategy :=
  { s with window := [], prevPair := none }

/-- Risk manager state (risk.rs, struct RiskManager). -/
structure RiskManagerState where
  config : RiskConfig
  order_timestamps : List ℚ
  peak_equity : ℚ
  initial_equity : ℚ
deriving DecidableEq, Repr

/-- `RiskManager::check_capital` (risk.rs lines 113-137). -/
def checkCapital (rm : RiskManagerState) (order : OrderRequest)
    (account : AccountStatus) (current_price : ℚ) : Except RiskErr Unit :=
  let order_value := fabs order.quantity * current_price
  if account.available < order_value then
    .error (.insufficientCapital order_value account.available)
  else if rm.config.max_order_value < order_value then
    .error (.insufficientCapital order_value rm.config.max_order_value)
  else .ok ()

/-- `RiskManager::check_position_limit` (risk.rs lines 175-197): the position
count is used as a proxy, 100 units per position. -/
def checkPositionLimit (rm : RiskManagerState) (order : OrderRequest)
    (account : AccountStatus) : Except RiskErr Unit :=
  let current_position := (account.position_count : ℚ) * 100
  let order_quantity := fabs order.quantity
  let total_position := current_position + order_quantity
  if rm.config.max_position_size < total_position then
    .error (.positionLimitExceeded current_position order_quantity
      rm.config.max_position_size)
  else .ok ()

/-- `RiskManager::check_drawdown` (risk.rs lines 203-218). -/
def checkDrawdown (rm : RiskManagerState) (account : AccountStatus) :
    Except RiskErr Unit :=
  if rm.peak_equity ≤ 0 then .ok ()
  else
    let drawdown := (rm.peak_equity - account.equity) / rm.peak_equity
    if rm.config.max_drawdown_pct < drawdown then
      .error (.maxDrawdownExceeded (drawdown * 100) (rm.config.max_drawdown_pct * 100))
    else .ok ()

/-- `RiskManager::check` (risk.rs lines 96-107): capital, throttle, position
limit, drawdown, in that order; the throttle clock reading is explicit. -/
def riskCheck (rm : RiskManagerState) (order : OrderRequest)
    (account : AccountStatus) (current_price now : ℚ) :
    Except RiskErr Unit × RiskManagerState :=
  match checkCapital rm order account current_price with
  | .error e => (.error e, rm)
  | .ok _ =>
    match checkThrottle rm.config.max_order_rate rm.order_timestamps now with
    | (.error e, q) => (.error e, { rm with order_timestamps := q })
    | (.ok _, q) =>
      let rm1 := { rm with order_timestamps := q }
      match checkPositionLimit rm1 order account with
      | .error e => (.error e, rm1)
      | .ok _ =>
        match checkDrawdown rm1 account with
        | .error e => (.error e, rm1)
        | .ok _ => (.ok (), rm1)

/-- `RiskManager::update_equity` (risk.rs lines 80-84): move the peak up only. -/
def RiskManagerState.updateEquity (rm : RiskManagerState) (current_equity : ℚ) :
    RiskManagerState :=
  if rm.peak_equity < current_equity then { rm with peak_equity := current_equity }
  else rm

/-- `RiskManager::initialize` (risk.rs lines 74-77). -/
def RiskManagerState.initEquity (rm : RiskManagerState) (initial_equity : ℚ) :
    RiskManagerState :=
  { rm with initial_equity := initial_equity, peak_equity := initial_equity }

/-- Backtest result (src/aegisquant-core/src/types.rs, struct BacktestResult);
`sharpe_value` models the source field sharpe_ratio. -/
structure BacktestResult where
  final_equity : ℚ
  total_return_pct : ℚ
  max_drawdown_pct : ℚ
  sharpe_value : ℚ
  total_trades : Int
  winning_trades : Int
  losing_trades : Int
  actual_start_bar : Int
  first_trade_timestamp : Int
deriving DecidableEq, Repr

/-- Engine state (src/aegisquant-core/src/engine.rs, struct BacktestEngine).
The rust_decimal balances are exact in the rational model; the `initialized`
flag is `inited`. -/
structure EngineState where
  params : StrategyParams
  risk_config : RiskConfig
  balance : ℚ
  initial_balance : ℚ
  strategy : DualMAStrategy
  risk_manager : RiskManagerState
  gateway : SimGateway
  ticks : List Tick
  data_report : Option DataQualityReport
  current_index : Nat
  equity_curve : List ℚ
  peak_equity : ℚ
  symbol : String
  inited : Bool
  total_trades : Int
  winning_trades : Int
  losing_trades : Int
deriving Repr

/-- `BacktestEngine::new` (engine.rs lines 69-91). -/
def mkEngine (params : StrategyParams) (risk_config : RiskConfig) : EngineState :=
  { params := params, risk_config := risk_config,
    balance := 100000, initial_balance := 100000,
    strategy := ⟨params, [], none⟩,
    risk_manager := ⟨risk_config, [], 0, 0⟩,
    gateway := mkSimGateway 100000 (1/1000) (1/10000),
    ticks := [], data_report := none, current_index := 0,
    equity_curve := [], peak_equity := 100000, symbol := "BTCUSDT",
    inited := true, total_trades := 0, winning_trades := 0, losing_trades := 0 }

/-- `BacktestEngine::load_data_from_vectors` (engine.rs lines 123-140): cleanse
with the default threshold 0.10, store ticks and report, reset the index and
initialize the risk manager's equity from the balance. -/
def loadDataFromVectors (e : EngineState) (ts : List Int)
    (ps vs : List (Option ℚ)) : Except EngineErr EngineState :=
  match loadFromVectors (1/10) ts ps vs with
  | .error err => .error err
  | .ok res =>
    .ok
      { e with ticks := res.ticks, data_report := some res.report,
               current_index := 0,
               risk_manager := e.risk_manager.initEquity e.balance }

/-- Win/loss classification over the drained fills (engine.rs lines 170-184):
for each Sell fill, inspect the position's cumulative realized P&L. -/
def classifyFills (gw : SimGateway) (symbol : String) (fills : List Fill)
    (wl : Int × Int) : Int × Int :=
  fills.foldl (fun acc fill =>
    if fill.direction = DIRECTION_SELL then
      match queryPositionRealized gw symbol with
      | some rp =>
        if 0 < rp then (acc.1 + 1, acc.2)
        else if rp < 0 then (acc.1, acc.2 + 1)
        else acc
      | none => acc
    else acc) wl

/-- `BacktestEngine::process_tick` (engine.rs lines 143-215), with the
throttle's clock reading passed as `now`: price and timestamp update, strategy
signal, optional risk check and order submission with trade counting, then
equity curve, balance, peak equity and risk-equity updates. -/
def processTick (e : EngineState) (now : ℚ) (tick : Tick) :
    Except EngineErr (EngineState × Signal) :=
  if e.inited = false then .error .engineNotInit
  else
    let gw1 := setTimestamp (updatePrice e.gateway e.symbol tick.price) tick.timestamp
    let sp := e.strategy.onTick tick
    let sig := sp.1
    let strat1 := sp.2
    let step : SimGateway × RiskManagerState × Int × Int × Int :=
      if sig ≠ Signal.nosig then
        match generateOrder sig e.symbol e.params tick.price with
        | some order =>
          let account := queryAccount gw1
          match riskCheck e.risk_manager order account tick.price now with
          | (.ok _, rm1) =>
            match submitOrder gw1 order tick.price with
            | (.ok _, gw2) =>
              let fg := getFills gw2
              let wl := classifyFills fg.2 e.symbol fg.1
                (e.winning_trades, e.losing_trades)
              (fg.2, rm1, e.total_trades + 1, wl.1, wl.2)
            | (.error _, gw2) =>
              (gw2, rm1, e.total_trades, e.winning_trades, e.losing_trades)
          | (.error _, rm1) =>
            (gw1, rm1, e.total_trades, e.winning_trades, e.losing_trades)
        | none => (gw1, e.risk_manager, e.total_trades, e.winning_trades, e.losing_trades)
      else (gw1, e.risk_manager, e.total_trades, e.winning_trades, e.losing_trades)
    let gwF := step.1
    let rmF := step.2.1
    let account := queryAccount gwF
    .ok
      ({ e with
          strategy := strat1,
          gateway := gwF,
          total_trades := step.2.2.1,
          winning_trades := step.2.2.2.1,
          losing_trades := step.2.2.2.2,
          equity_curve := e.equity_curve ++ [account.equity],
          balance := account.balance,
          peak_equity := if e.peak_equity < account.equity then account.equity
            else e.peak_equity,
          risk_manager := rmF.updateEquity account.equity }, sig)

/-- The tick loop of `BacktestEngine::run` (engine.rs lines 232-236),
incrementing `current_index` after each processed tick; `clock i` is the
wall-clock instant at which tick i is processed. -/
def runLoop (clock : Nat → ℚ) : EngineState → Nat → List Tick →
    Except EngineErr EngineState
  | e, _, [] => .ok e
  | e, i, t :: rest =>
    match processTick e (clock i) t with
    | .error err => .error err
    | .ok (e1, _) =>
      runLoop clock { e1 with current_index := e1.current_index + 1 } (i + 1) rest

/-- One step of the drawdown scan in `calculate_max_drawdown`
(engine.rs lines 294-305). -/
def ddFold (st : ℚ × ℚ) (eq : ℚ) : ℚ × ℚ :=
  let peak := if st.1 < eq then eq else st.1
  let dd := (peak - eq) / peak
  (peak, if st.2 < dd then dd else st.2)

/-- `BacktestEngine::calculate_max_drawdown` (engine.rs lines 289-308). -/
def calcMaxDrawdown (curve : List ℚ) : ℚ :=
  match curve with
  | [] => 0
  | c0 :: _ => (curve.foldl ddFold (c0, 0)).2 * 100

/-- `BacktestEngine::calculate_sharpe_ratio` (engine.rs lines 311-345); the
f64 square root is an explicit parameter of the model. -/
def calcSharpe (sqrtf : ℚ → ℚ) (curve : List ℚ) : ℚ :=
  if curve.length < 2 then 0
  else
    let returns := (curve.zip curve.tail).map (fun pr => (pr.2 - pr.1) / pr.1)
    if returns.isEmpty then 0
    else
      let mean_return := returns.sum / (returns.length : ℚ)
      let variance := (returns.map (fun r => (r - mean_return) ^ 2)).sum /
        (returns.length : ℚ)
      let std_dev := sqrtf variance
      if std_dev = 0 then 0 else mean_return / std_dev * sqrtf 252

/-- `BacktestEngine::run` (engine.rs lines 218-261): reject when no data is
loaded, reset state, process every tick, then build the result — with
`actual_start_bar` hard-coded to 0 (engine.rs line 258, marked TODO). -/
def engineRun (sqrtf : ℚ → ℚ) (clock : Nat → ℚ) (e : EngineState) :
    Except EngineErr BacktestResult :=
  if e.ticks.isEmpty then .error .validationError
  else
    let e0 :=
      { e with current_index := 0, equity_curve := [],
               strategy := e.strategy.reset,
               total_trades := 0, winning_trades := 0, losing_trades := 0 }
    match runLoop clock e0 0 e0.ticks with
    | .error err => .error err
    | .ok e1 =>
      let final_account := queryAccount e1.gateway
      let final_equity := final_account.equity
      let initial := e1.initial_balance
      .ok
        { final_equity := final_equity,
          total_return_pct := (final_equity - initial) / initial * 100,
          max_drawdown_pct := calcMaxDrawdown e1.equity_curve,
          sharpe_value := calcSharpe sqrtf e1.equity_curve,
          total_trades := e1.total_trades,
          winning_trades := e1.winning_trades,
          losing_trades := e1.losing_trades,
          actual_start_bar := 0,
          first_trade_timestamp := 0 }

/-- Demo engine for C7: warmup_bars = 5, loaded with three clean ticks via
load_data_from_vectors. -/
def engDemo : EngineState :=
  ((loadDataFromVectors (mkEngine ⟨5, 20, 100, 1/50, 1/20, 5⟩ ⟨10, 1000, 100000, 1/10⟩)
    [1, 2, 3] [some 100, some 101, some 102] [some 10, some 10, some 10]).toOption).getD
    (mkEngine ⟨5, 20, 100, 1/50, 1/20, 5⟩ ⟨10, 1000, 100000, 1/10⟩)

/-- Parameter ranges for the sweep (src/aegisquant-core/src/optimizer.rs,
struct ParameterRange): (start, end, step) triples. -/
structure ParameterRange where
  short_ma_range : Int × Int × Int
  long_ma_range : Int × Int × Int
  position_size_range : Option (ℚ × ℚ × ℚ)
deriving DecidableEq, Repr

/-- Fuelled enumeration of `start, start+step, ...` while `≤ stop`. -/
def rangeStepsAux (step : Int) : Nat → Int → Int → List Int
  | 0, _, _ => []
  | n + 1, start, stop =>
    if start ≤ stop then start :: rangeStepsAux step n (start + step) stop else []

/-- The integer stepping loops of `Optimizer::generate_combinations`
(optimizer.rs lines 88-120): `while v <= stop { push v; v += step }`.  For a
positive step the loop runs exactly `(stop - start)/step + 1` times when
`start ≤ stop` (and never when `start > stop`), which the fuel makes explicit;
for a non-positive step the source loop would not terminate, so that
degenerate case is modelled as the empty enumeration. -/
def rangeSteps (start stop step : Int) : List Int :=
  if 0 < step then rangeStepsAux step ((stop - start) / step + 1).toNat start stop
  else []

/-- Fuelled enumeration for the rational position-size loop. -/
def rangeStepsQAux (step : ℚ) : Nat → ℚ → ℚ → List ℚ
  | 0, _, _ => []
  | n + 1, start, stop =>
    if start ≤ stop then start :: rangeStepsQAux step n (start + step) stop else []

/-- The position-size stepping loop of `generate_combinations` (optimizer.rs
lines 94-101), with the same fuel convention: `⌊(stop - start)/step⌋ + 1`
iterations for a positive step. -/
def rangeStepsQ (start stop step : ℚ) : List ℚ :=
  if 0 < step then rangeStepsQAux step (⌊(stop - start) / step⌋ + 1).toNat start stop
  else []

/-- Position sizes of a combination (optimizer.rs lines 94-104): the supplied
range, or the default single size 100.0. -/
def positionSizes (range : ParameterRange) : List ℚ :=
  match range.position_size_range with
  | some (s, e, st) => rangeStepsQ s e st
  | none => [100]

/-- `Optimizer::generate_combinations` (optimizer.rs lines 82-123): all
(short, long, position_size) combinations with short < long, with stop-loss
0.02, take-profit 0.05 and warmup 0. -/
def generateCombinations (range : ParameterRange) : List StrategyParams :=
  (rangeSteps range.short_ma_range.1 range.short_ma_range.2.1
      range.short_ma_range.2.2).flatMap (fun short_ma =>
    (rangeSteps range.long_ma_range.1 range.long_ma_range.2.1
        range.long_ma_range.2.2).flatMap (fun long_ma =>
      if short_ma < long_ma then
        (positionSizes range).map (fun position_size =>
          ⟨short_ma, long_ma, position_size, 1/50, 1/20, 0⟩)
      else []))

/-- `BacktestEngine::with_initial_balance` (engine.rs lines 94-99). -/
def withInitialBalance (e : EngineState) (balance : ℚ) : EngineState :=
  { e with balance := balance, initial_balance := balance,
           gateway := mkSimGateway balance (1/1000) (1/10000) }

/-- `BacktestEngine::with_symbol` (engine.rs lines 102-105). -/
def withSymbol (e : EngineState) (symbol : String) : EngineState :=
  { e with symbol := symbol }

/-- `Optimizer::run_single_backtest` (optimizer.rs lines 167-192): fresh
engine per combination, load, run; `None` on any failure. -/
def runSingleBacktest (sqrtf : ℚ → ℚ) (clock : Nat → ℚ) (risk_config : RiskConfig)
    (initial_balance : ℚ) (symbol : String) (params : StrategyParams)
    (timestamps : List Int) (prices volumes : List (Option ℚ)) :
    Option BacktestResult :=
  let e := withSymbol (withInitialBalance (mkEngine params risk_config) initial_balance)
    symbol
  match loadDataFromVectors e timestamps prices volumes with
  | .error _ => none
  | .ok e1 => (engineRun sqrtf clock e1).toOption

/-- `Optimizer::run_parameter_sweep` (optimizer.rs lines 128-164): split the
tick array into columns, run one independent share-nothing engine per
combination, and keep the successful `(params, result)` pairs.  The engines
touch no shared mutable state; the only run-varying environmental input of an
engine is the sequence of `Instant::now()` readings taken by the risk
throttle, so one sweep run is modelled by a clock assignment giving each
combination's engine its per-tick wall-clock instants — two executions under
different schedulings are two clock assignments. -/
def runParameterSweep (sqrtf : ℚ → ℚ) (clocks : StrategyParams → Nat → ℚ)
    (risk_config : RiskConfig) (initial_balance : ℚ) (symbol : String)
    (ticks : List Tick) (range : ParameterRange) :
    List (StrategyParams × BacktestResult) :=
  (generateCombinations range).filterMap (fun params =>
    (runSingleBacktest sqrtf (clocks params) risk_config initial_balance symbol params
        (ticks.map (·.timestamp)) (ticks.map (fun t => some t.price))
        (ticks.map (fun t => some t.volume))).map (fun r => (params, r)))

/-- Five clean ticks whose dual-MA (short 1, long 2) crossings yield a Buy at
tick 3, a Sell at tick 4 and a Buy at tick 5. -/
def sweepTicks : List Tick :=
  [⟨1, 10, 1⟩, ⟨2, 9, 1⟩, ⟨3, 11, 1⟩, ⟨4, 9, 1⟩, ⟨5, 11, 1⟩]

/-- A range with the single combination short = 1, long = 2. -/
def sweepRange : ParameterRange := ⟨(1, 1, 1), (2, 2, 1), none⟩

/-- Risk config with max_order_rate = 1, all other limits permissive. -/
def sweepCfg : RiskConfig := ⟨1, 1000, 100000, 1/10⟩

/-- A sweep run whose engines observe all Instant::now() readings at the same
instant (a fast, unloaded machine). -/
def clockSame : StrategyParams → Nat → ℚ := fun _ _ => 0

/-- A sweep run whose engines observe two seconds of wall clock between ticks
(a slow or contended machine). -/
def clockSpread : StrategyParams → Nat → ℚ := fun _ i => 2 * (i : ℚ)

theorem fabs_eq_abs (x : ℚ) : fabs x = |x| := by
  unfold fabs
  rcases lt_or_le x 0 with h | h
  · rw [if_pos h, abs_of_neg h]
  · rw [if_neg (not_lt.2 h), abs_of_nonneg h]

theorem cleanseStep_spec (thr : ℚ) :
    ∀ (rows : List (Int × Option ℚ × Option ℚ)) (i : Nat) (prevTs : Option Int)
      (prevP : Option ℚ), (∀ q, prevP = some q → 0 < q) →
    (cleanseStep thr i prevTs prevP rows).ticks =
        (survivorsSpec i prevTs rows).map Prod.snd ∧
    ((cleanseStep thr i prevTs prevP rows).ticks.length : Int) +
        (cleanseStep thr i prevTs prevP rows).invalid = rows.length ∧
    (∀ t ∈ (cleanseStep thr i prevTs prevP rows).ticks, 0 < t.price ∧ 0 ≤ t.volume) ∧
    List.Chain' (· < ·)
        (prevTs.toList ++ ((cleanseStep thr i prevTs prevP rows).ticks.map Tick.timestamp)) ∧
    (prevP = none →
        (cleanseStep thr i prevTs prevP rows).anomIdx =
          anomalySpec thr (survivorsSpec i prevTs rows)) ∧
    (∀ pp, prevP = some pp →
        (cleanseStep thr i prevTs prevP rows).anomIdx =
          anomalyChain thr pp (survivorsSpec i prevTs rows)) ∧
    (cleanseStep thr i prevTs prevP rows).anomaly =
        ((cleanseStep thr i prevTs prevP rows).anomIdx.length : Int) := by
  intro rows
  induction rows with
  | nil =>
    intro i prevTs prevP _
    refine ⟨rfl, by simp [cleanseStep], by simp [cleanseStep], ?_, ?_, ?_, by simp [cleanseStep]⟩
    · simp [cleanseStep]
      cases prevTs <;> simp
    · intro _; simp [cleanseStep, survivorsSpec, anomalySpec]
    · intro pp _; simp [cleanseStep, survivorsSpec, anomalyChain]
  | cons row rest ih =>
    intro i prevTs prevP hpp
    obtain ⟨ts, pr, vol⟩ := row
    match pr, vol with
    | none, _ =>
      obtain ⟨ih1, ih2, ih3, ih4, ih5, ih6, ih7⟩ := ih (i + 1) prevTs prevP hpp
      refine ⟨?_, ?_, ?_, ?_, ?_, ?_, ?_⟩ <;>
        simp only [cleanseStep, survivorsSpec, CState.addInvalid] <;>
        first
          | exact ih1
          | (simp only [List.length_cons]; push_cast; omega)
          | exact ih3
          | exact ih4
          | exact ih5
          | exact ih6
          | exact ih7
    | some p, none =>
      obtain ⟨ih1, ih2, ih3, ih4, ih5, ih6, ih7⟩ := ih (i + 1) prevTs prevP hpp
      refine ⟨?_, ?_, ?_, ?_, ?_, ?_, ?_⟩ <;>
        simp only [cleanseStep, survivorsSpec, CState.addInvalid] <;>
        first
          | exact ih1
          | (simp only [List.length_cons]; push_cast; omega)
          | exact ih3
          | exact ih4
          | exact ih5
          | exact ih6
          | exact ih7
    | some p, some v =>
      by_cases hp : p ≤ 0
      · obtain ⟨ih1, ih2, ih3, ih4, ih5, ih6, ih7⟩ := ih (i + 1) prevTs prevP hpp
        have hcond : ¬ (0 < p ∧ 0 ≤ v ∧ tsStale prevTs ts = false) := by
          rintro ⟨h, -, -⟩; exact absurd h (not_lt.2 hp)
        refine ⟨?_, ?_, ?_, ?_, ?_, ?_, ?_⟩ <;>
          simp only [cleanseStep, survivorsSpec, CState.addInvalid, if_pos hp, if_neg hcond] <;>
          first
            | exact ih1
            | (simp only [List.length_cons]; push_cast; omega)
            | exact ih3
            | exact ih4
            | exact ih5
            | exact ih6
            | exact ih7
      · by_cases hv : v < 0
        · obtain ⟨ih1, ih2, ih3, ih4, ih5, ih6, ih7⟩ := ih (i + 1) prevTs prevP hpp
          have hcond : ¬ (0 < p ∧ 0 ≤ v ∧ tsStale prevTs ts = false) := by
            rintro ⟨-, h, -⟩; exact absurd h (not_le.2 hv)
          refine ⟨?_, ?_, ?_, ?_, ?_, ?_, ?_⟩ <;>
            simp only [cleanseStep, survivorsSpec, CState.addInvalid, if_neg hp, if_pos hv,
              if_neg hcond] <;>
            first
              | exact ih1
              | (simp only [List.length_cons]; push_cast; omega)
              | exact ih3
              | exact ih4
              | exact ih5
              | exact ih6
              | exact ih7
        · by_cases hts : tsStale prevTs ts
          · obtain ⟨ih1, ih2, ih3, ih4, ih5, ih6, ih7⟩ := ih (i + 1) prevTs prevP hpp
            have hcond : ¬ (0 < p ∧ 0 ≤ v ∧ tsStale prevTs ts = false) := by
              rintro ⟨-, -, h⟩; rw [hts] at h; simp at h
            refine ⟨?_, ?_, ?_, ?_, ?_, ?_, ?_⟩ <;>
              simp only [cleanseStep, survivorsSpec, CState.addInvalid, if_neg hp, if_neg hv,
                if_pos hts, if_neg hcond] <;>
              first
                | exact ih1
                | (simp only [List.length_cons]; push_cast; omega)
                | exact ih3
                | exact ih4
                | exact ih5
                | exact ih6
                | exact ih7
          · -- the tick survives
            have hp0 : 0 < p := not_le.1 hp
            have hv0 : 0 ≤ v := not_lt.1 hv
            have hcond : 0 < p ∧ 0 ≤ v ∧ tsStale prevTs ts = false :=
              ⟨hp0, hv0, Bool.eq_false_iff.mpr hts⟩
            obtain ⟨ih1, ih2, ih3, ih4, ih5, ih6, ih7⟩ :=
              ih (i + 1) (some ts) (some p) (by rintro q ⟨rfl⟩; exact hp0)
            have hstep :
                cleanseStep thr i prevTs prevP ((ts, some p, some v) :: rest) =
                { ticks := ⟨ts, p, v⟩ :: (cleanseStep thr (i + 1) (some ts) (some p) rest).ticks,
                  invalid := (cleanseStep thr (i + 1) (some ts) (some p) rest).invalid,
                  anomaly := (if isAnomalyB thr prevP p then 1 else 0) +
                    (cleanseStep thr (i + 1) (some ts) (some p) rest).anomaly,
                  anomIdx := if isAnomalyB thr prevP p then
                      i :: (cleanseStep thr (i + 1) (some ts) (some p) rest).anomIdx
                    else (cleanseStep thr (i + 1) (some ts) (some p) rest).anomIdx } := by
              simp only [cleanseStep, if_neg hp, if_neg hv, if_neg hts]
            have hsurv :
                survivorsSpec i prevTs ((ts, some p, some v) :: rest) =
                (i, ⟨ts, p, v⟩) :: survivorsSpec (i + 1) (some ts) rest := by
              simp only [survivorsSpec, if_pos hcond]
            refine ⟨?_, ?_, ?_, ?_, ?_, ?_, ?_⟩
            · rw [hstep, hsurv]; simp only [List.map_cons]; rw [ih1]
            · rw [hstep]; simp only [List.length_cons]; push_cast; omega
            · rw [hstep]
              intro t ht
              rcases List.mem_cons.1 ht with rfl | ht
              · exact ⟨hp0, hv0⟩
              · exact ih3 t ht
            · rw [hstep]
              simp only [List.map_cons]
              cases prevTs with
              | none => simpa using ih4
              | some pt =>
                have hlt : pt < ts := by
                  have : ¬ ts ≤ pt := by
                    intro hle
                    exact hts (by simp [tsStale, hle])
                  omega
                simp only [Option.toList_some, List.cons_append, List.nil_append]
                rw [List.chain'_cons]
                exact ⟨hlt, by simpa using ih4⟩
            · -- prevP = none: first survivor, no anomaly flagged here
              rintro rfl
              rw [hstep, hsurv]
              have hanom : isAnomalyB thr none p = false := rfl
              simp only [hanom, Bool.false_eq_true, if_false, anomalySpec]
              exact ih6 p rfl
            · -- prevP = some pp
              rintro pp rfl
              have hpp0 : 0 < pp := hpp pp rfl
              rw [hstep, hsurv]
              have hform : isAnomalyB thr (some pp) p = decide (thr < |p - pp| / pp) := by
                simp only [isAnomalyB, if_pos hpp0, fabs_eq_abs, abs_div, abs_of_pos hpp0]
              simp only [anomalyChain, hform]
              by_cases hj : thr < |p - pp| / pp
              · simp only [decide_eq_true hj, if_pos hj, if_true]
                rw [ih6 p rfl]
              · simp only [decide_eq_false hj, if_neg hj, Bool.false_eq_true, if_false]
                rw [ih6 p rfl]
            · rw [hstep]
              by_cases ha : isAnomalyB thr prevP p
              · simp only [ha, if_true, List.length_cons]
                push_cast
                omega
              · simp only [ha, Bool.false_eq_true, if_false]
                simpa using ih7

/-- C1 (corrected, amended form): for every NONEMPTY triple of equal-length
input vectors, `load_from_vectors` returns a report with
`valid_ticks + invalid_ticks = total_ticks`; every emitted tick has a positive
(finite) price, a non-negative (finite) volume, and strictly increasing
timestamps across the output; the emitted ticks are exactly the survivors of
the per-tick rejection rules; and the anomaly indices are exactly the input
indices of those surviving ticks whose price jump relative to the previously
appended price strictly exceeds the threshold, with the anomaly count equal to
their number. -/
theorem c1_load_from_vectors_sound (thr : ℚ) (ts : List Int) (ps vs : List (Option ℚ))
    (h1 : ts.length = ps.length) (h2 : ps.length = vs.length) (hne : ts ≠ []) :
    ∃ res, loadFromVectors thr ts ps vs = .ok res ∧
      res.report.valid_ticks + res.report.invalid_ticks = res.report.total_ticks ∧
      (∀ t ∈ res.ticks, 0 < t.price ∧ 0 ≤ t.volume) ∧
      List.Chain' (· < ·) (res.ticks.map Tick.timestamp) ∧
      res.ticks = (survivorsSpec 0 none (ts.zip (ps.zip vs))).map Prod.snd ∧
      res.anomaly_indices = anomalySpec thr (survivorsSpec 0 none (ts.zip (ps.zip vs))) ∧
      res.report.anomaly_ticks = (res.anomaly_indices.length : Int) := by
  have hc1 : ¬ (ts.length ≠ ps.length ∨ ps.length ≠ vs.length) := by
    push_neg
    exact ⟨h1, h2⟩
  have hc2 : ¬ (ts.isEmpty = true) := by
    simpa [List.isEmpty_iff] using hne
  obtain ⟨l1, l2, l3, l4, l5, -, l7⟩ :=
    cleanseStep_spec thr (ts.zip (ps.zip vs)) 0 none none (by rintro q ⟨⟩)
  have hrows : ((ts.zip (ps.zip vs)).length : Int) = ts.length := by
    rw [List.length_zip, List.length_zip]
    omega
  refine ⟨⟨(cleanseStep thr 0 none none (ts.zip (ps.zip vs))).ticks,
      ⟨ts.length, (cleanseStep thr 0 none none (ts.zip (ps.zip vs))).ticks.length,
        (cleanseStep thr 0 none none (ts.zip (ps.zip vs))).invalid,
        (cleanseStep thr 0 none none (ts.zip (ps.zip vs))).anomaly,
        ts.headD 0, ts.getLastD 0⟩,
      (cleanseStep thr 0 none none (ts.zip (ps.zip vs))).anomIdx⟩,
    ?_, ?_, l3, ?_, l1, l5 rfl, l7⟩
  · unfold loadFromVectors
    rw [if_neg hc1, if_neg hc2]
  · rw [l2]
    exact hrows
  · simpa using l4

/-- C1 counterexample: the claim quantifies over every triple of equal-length
input vectors, but on the empty (equal-length) triple `load_from_vectors`
returns a ValidationError instead of a report. -/
theorem c1_counterexample_empty :
    loadFromVectors (1/10) [] [] [] = .error .validationError := rfl

/-- C1 witness: the amended theorem instantiated at the seed scenario S1. -/
theorem c1_load_from_vectors_sound_witness :
    ∃ res, loadFromVectors (1/10) [1, 2, 3] [some 100, some (-50), some 102]
        [some 1000, some 1100, some 1200] = .ok res ∧
      res.report.valid_ticks + res.report.invalid_ticks = res.report.total_ticks ∧
      (∀ t ∈ res.ticks, 0 < t.price ∧ 0 ≤ t.volume) ∧
      List.Chain' (· < ·) (res.ticks.map Tick.timestamp) ∧
      res.ticks = (survivorsSpec 0 none
        ([1, 2, 3].zip ([some 100, some (-50), some 102].zip
          [some 1000, some 1100, some 1200]))).map Prod.snd ∧
      res.anomaly_indices = anomalySpec (1/10) (survivorsSpec 0 none
        ([1, 2, 3].zip ([some 100, some (-50), some 102].zip
          [some 1000, some 1100, some 1200]))) ∧
      res.report.anomaly_ticks = (res.anomaly_indices.length : Int) :=
  c1_load_from_vectors_sound (1/10) [1, 2, 3] [some 100, some (-50), some 102]
    [some 1000, some 1100, some 1200] rfl rfl (by decide)

/-- C2: for every order accepted by the simple gateway at price p with
slippage s and commission rate c, the recorded fill has price p*(1+s) for a
Buy and p*(1-s) for a Sell, commission quantity*fill_price*c, and the balance
moves by -(trade_value + commission) for a Buy and +(trade_value - commission)
for a Sell, with trade_value = quantity*fill_price. -/
theorem c2_simple_gateway_fill (g : SimGateway) (order : OrderRequest) (p : ℚ)
    (oid : Nat) (g' : SimGateway)
    (h : submitOrder g order p = (.ok oid, g')) :
    ∃ f, g'.pending_fills = g.pending_fills ++ [f] ∧
      (order.direction = DIRECTION_BUY → f.price = p * (1 + g.slippage)) ∧
      (order.direction = DIRECTION_SELL → f.price = p * (1 - g.slippage)) ∧
      f.commission = order.quantity * f.price * g.commission_rate ∧
      (order.direction = DIRECTION_BUY →
        g'.balance = g.balance - (order.quantity * f.price + f.commission)) ∧
      (order.direction = DIRECTION_SELL →
        g'.balance = g.balance + (order.quantity * f.price - f.commission)) := by
  simp only [submitOrder] at h
  split at h
  · exact absurd h (by simp)
  · split at h
    · exact absurd h (by simp)
    · split at h
      · exact absurd h (by simp)
      · rw [Prod.mk.injEq] at h
        obtain ⟨-, h2⟩ := h
        subst h2
        refine ⟨_, rfl, ?_, ?_, ?_, ?_, ?_⟩
        · intro hdir
          simp only [calculateFillPrice, if_pos hdir]
          ring
        · intro hdir
          have : order.direction ≠ DIRECTION_BUY := by
            rw [hdir]; decide
          simp only [calculateFillPrice, if_neg this]
          ring
        · simp only [calculateCommission]
        · intro hdir
          simp only [if_pos hdir]
        · intro hdir
          have : order.direction ≠ DIRECTION_BUY := by
            rw [hdir]; decide
          simp only [if_neg this]

/-- C2 witness: buy 1 unit at price 50000 with slippage 1/100 and zero
commission on a fresh gateway with balance 100000. -/
theorem c2_simple_gateway_fill_witness :
    ∃ f, (⟨1/100, 0, [("BTCUSDT", 50000)], [⟨"BTCUSDT", 1, 50500, 0⟩], 49500,
        100000, 2, [⟨1, "BTCUSDT", 1, 50500, 0, 1, 0⟩], 0⟩ : SimGateway).pending_fills =
      (mkSimGateway 100000 (1/100) 0).pending_fills ++ [f] ∧
      ((⟨"BTCUSDT", 1, 1, 0, 0⟩ : OrderRequest).direction = DIRECTION_BUY →
        f.price = 50000 * (1 + (mkSimGateway 100000 (1/100) 0).slippage)) ∧
      ((⟨"BTCUSDT", 1, 1, 0, 0⟩ : OrderRequest).direction = DIRECTION_SELL →
        f.price = 50000 * (1 - (mkSimGateway 100000 (1/100) 0).slippage)) ∧
      f.commission = (⟨"BTCUSDT", 1, 1, 0, 0⟩ : OrderRequest).quantity * f.price *
        (mkSimGateway 100000 (1/100) 0).commission_rate ∧
      ((⟨"BTCUSDT", 1, 1, 0, 0⟩ : OrderRequest).direction = DIRECTION_BUY →
        (⟨1/100, 0, [("BTCUSDT", 50000)], [⟨"BTCUSDT", 1, 50500, 0⟩], 49500,
          100000, 2, [⟨1, "BTCUSDT", 1, 50500, 0, 1, 0⟩], 0⟩ : SimGateway).balance =
          (mkSimGateway 100000 (1/100) 0).balance -
            ((⟨"BTCUSDT", 1, 1, 0, 0⟩ : OrderRequest).quantity * f.price + f.commission)) ∧
      ((⟨"BTCUSDT", 1, 1, 0, 0⟩ : OrderRequest).direction = DIRECTION_SELL →
        (⟨1/100, 0, [("BTCUSDT", 50000)], [⟨"BTCUSDT", 1, 50500, 0⟩], 49500,
          100000, 2, [⟨1, "BTCUSDT", 1, 50500, 0, 1, 0⟩], 0⟩ : SimGateway).balance =
          (mkSimGateway 100000 (1/100) 0).balance +
            ((⟨"BTCUSDT", 1, 1, 0, 0⟩ : OrderRequest).quantity * f.price - f.commission)) :=
  c2_simple_gateway_fill (mkSimGateway 100000 (1/100) 0) ⟨"BTCUSDT", 1, 1, 0, 0⟩ 50000 1 _
    (by norm_num [submitOrder, mkSimGateway, calculateFillPrice, calculateCommission,
      getPos, setPos, insertA, buyUpdate, DIRECTION_BUY, DIRECTION_SELL, List.find?])

/-- C3: for every gateway state, `query_account` reports equity equal to
balance plus the sum over positions of unrealized P&L, where a position's
unrealized P&L is (current_price - average_price) * quantity when the symbol
has a stored price and 0 otherwise, and total_pnl equal to the sum of realized
P&L plus the sum of unrealized P&L. -/
theorem c3_equity_identity (g : SimGateway) :
    (queryAccount g).equity =
      g.balance + (g.positions.map (fun p =>
        ((lookupA g.current_prices p.symbol).map
          (fun cp => (cp - p.average_price) * p.quantity)).getD 0)).sum ∧
    (queryAccount g).total_pnl =
      (g.positions.map (·.realized_pnl)).sum + (g.positions.map (fun p =>
        ((lookupA g.current_prices p.symbol).map
          (fun cp => (cp - p.average_price) * p.quantity)).getD 0)).sum := by
  constructor <;> rfl

/-- C6 counterexample: from a fresh gateway, buying quantity 1e-5 at price 1
is accepted and leaves a position with |quantity| strictly between 1e-8 and
1e-4; the claim predicts position_count = 1 (cutoff QUANTITY_EPSILON = 1e-8),
but query_account reports 0 because the source uses the literal 0.0001. -/
theorem c6_counterexample :
    (submitOrder (mkSimGateway 100000 0 0) ⟨"BTCUSDT", 1/100000, 1, 0, 0⟩ 1).1 =
      Except.ok 1 ∧
    (queryAccount
      (submitOrder (mkSimGateway 100000 0 0) ⟨"BTCUSDT", 1/100000, 1, 0, 0⟩ 1).2).position_count = 0 ∧
    ((submitOrder (mkSimGateway 100000 0 0) ⟨"BTCUSDT", 1/100000, 1, 0, 0⟩ 1).2.positions.filter
      (fun p => 1/100000000 < |p.quantity|)).length = 1 := by
  norm_num [submitOrder, mkSimGateway, calculateFillPrice, calculateCommission, getPos, setPos,
    insertA, buyUpdate, DIRECTION_BUY, DIRECTION_SELL, queryAccount, totalUnrealized,
    totalRealized, calcUnrealized, lookupA, fabs, List.find?, List.filter, abs]

/-- C6 (corrected): for every gateway state, position_count equals the number
of positions whose |quantity| is strictly greater than 1e-4 (the literal
0.0001 used in query_account), not 1e-8. -/
theorem c6_position_count (g : SimGateway) :
    (queryAccount g).position_count =
      (g.positions.filter (fun p => 1/10000 < |p.quantity|)).length := by
  simp [queryAccount, fabs_eq_abs]

theorem execLoop_sums (sm : SlippageModel) (ratio : ℚ) (dir : Int) :
    ∀ (levels : List OrderBookLevel) (idx : Nat) (remaining : ℚ),
    ((execLoop sm ratio dir idx remaining levels).1.map (·.quantity)).sum =
      remaining - (execLoop sm ratio dir idx remaining levels).2.1 ∧
    (execLoop sm ratio dir idx remaining levels).2.2 =
      ((execLoop sm ratio dir idx remaining levels).1.map
        (fun f => f.price * f.quantity)).sum := by
  intro levels
  induction levels with
  | nil => intro idx remaining; simp [execLoop]
  | cons lvl rest ih =>
    intro idx remaining
    by_cases hbr : remaining ≤ 0 ∨ lvl.quantity ≤ 0
    · simp [execLoop, hbr]
    · obtain ⟨ih1, ih2⟩ := ih (idx + 1) (remaining - min remaining (lvl.quantity * ratio))
      constructor
      · simp only [execLoop, if_neg hbr, List.map_cons, List.sum_cons]
        rw [ih1]
        ring
      · simp only [execLoop, if_neg hbr, List.map_cons, List.sum_cons]
        rw [ih2]

theorem execLoop_complete (sm : SlippageModel) (ratio : ℚ) (dir : Int)
    (hr : 0 ≤ ratio) :
    ∀ (levels : List OrderBookLevel) (idx : Nat) (remaining : ℚ), 0 ≤ remaining →
    remaining ≤ ((levels.takeWhile (fun l => decide (0 < l.quantity))).map
      (fun l => l.quantity * ratio)).sum →
    (execLoop sm ratio dir idx remaining levels).2.1 = 0 := by
  intro levels
  induction levels with
  | nil =>
    intro idx remaining h0 hle
    simp only [List.takeWhile_nil, List.map_nil, List.sum_nil] at hle
    simp [execLoop]
    linarith
  | cons lvl rest ih =>
    intro idx remaining h0 hle
    by_cases hq : 0 < lvl.quantity
    · rw [List.takeWhile_cons_of_pos (by simpa using hq)] at hle
      simp only [List.map_cons, List.sum_cons] at hle
      by_cases hrem : remaining ≤ 0
      · have h00 : remaining = 0 := le_antisymm hrem h0
        simp [execLoop, h00]
      · have hbr : ¬ (remaining ≤ 0 ∨ lvl.quantity ≤ 0) := by
          push_neg
          exact ⟨lt_of_not_le hrem, hq⟩
        simp only [execLoop, if_neg hbr]
        have hsum_nonneg :
            0 ≤ ((rest.takeWhile (fun l => decide (0 < l.quantity))).map
              (fun l => l.quantity * ratio)).sum := by
          apply List.sum_nonneg
          intro x hx
          simp only [List.mem_map] at hx
          obtain ⟨l, hl, rfl⟩ := hx
          have hql := List.mem_takeWhile_imp hl
          simp only [decide_eq_true_eq] at hql
          exact mul_nonneg (le_of_lt hql) hr
        have hminle : min remaining (lvl.quantity * ratio) ≤ remaining :=
          min_le_left _ _
        apply ih (idx + 1)
        · linarith
        · rcases le_total remaining (lvl.quantity * ratio) with hc | hc
          · rw [min_eq_left hc]
            linarith
          · rw [min_eq_right hc]
            linarith
    · rw [List.takeWhile_cons_of_neg (by simpa using hq)] at hle
      simp only [List.map_nil, List.sum_nil] at hle
      have h00 : remaining = 0 := le_antisymm hle h0
      simp [execLoop, h00]

/-- C5 (corrected, amended form): for every L1 order book and every order,
execute_order returns filled_quantity + unfilled = order.quantity, and when
something filled, average_price is the volume-weighted average of the level
fills; and whenever 0 ≤ quantity, 0 ≤ fill_ratio and the quantity is at most
the sum of level_quantity * fill_ratio over the levels PRECEDING the first
empty level of the relevant side, the order fills completely. -/
theorem c5_l1_execute_order (g : L1Gateway) (order : OrderRequest) :
    (executeOrder g order).filled_quantity + (executeOrder g order).unfilled =
      order.quantity ∧
    (0 < (executeOrder g order).filled_quantity →
      (executeOrder g order).average_price =
        ((executeOrder g order).fills.map (fun f => f.price * f.quantity)).sum /
          ((executeOrder g order).fills.map (·.quantity)).sum) ∧
    (0 ≤ order.quantity → 0 ≤ g.fillRat →
      order.quantity ≤
        (((if order.direction = DIRECTION_BUY then g.asks else g.bids).takeWhile
            (fun l => decide (0 < l.quantity))).map
          (fun l => l.quantity * g.fillRat)).sum →
      (executeOrder g order).filled_quantity = order.quantity ∧
        (executeOrder g order).unfilled = 0) := by
  refine ⟨?_, ?_, ?_⟩
  · simp only [executeOrder]
    ring
  · intro hpos
    obtain ⟨hsum, hcost⟩ := execLoop_sums g.slippage_model g.fillRat order.direction
      (if order.direction = DIRECTION_BUY then g.asks else g.bids) 0 order.quantity
    simp only [executeOrder] at hpos ⊢
    rw [if_pos hpos, hcost, hsum]
  · intro hq hr hle
    have h0 := execLoop_complete g.slippage_model g.fillRat order.direction hr
      (if order.direction = DIRECTION_BUY then g.asks else g.bids) 0 order.quantity hq hle
    simp only [executeOrder, h0]
    constructor <;> ring_nf

/-- C5 counterexample: on an ask book [price 100 qty 0, price 101 qty 10] with
fill_ratio 1/2, a buy of quantity 1 satisfies quantity ≤ Σ over NON-EMPTY
levels of quantity*fill_ratio (= 5), yet nothing fills because the loop breaks
at the empty best level: filled_quantity = 0 and unfilled = 1, contradicting
the claimed complete fill. -/
theorem c5_counterexample_empty_level :
    ((l1CexGw.asks.filter (fun l => decide (0 < l.quantity))).map
      (fun l => l.quantity * l1CexGw.fillRat)).sum = 5 ∧
    (⟨"BTCUSDT", 1, 1, 0, 0⟩ : OrderRequest).quantity ≤ 5 ∧
    (executeOrder l1CexGw ⟨"BTCUSDT", 1, 1, 0, 0⟩).filled_quantity = 0 ∧
    (executeOrder l1CexGw ⟨"BTCUSDT", 1, 1, 0, 0⟩).unfilled = 1 := by
  norm_num [l1CexGw, executeOrder, execLoop, List.filter, DIRECTION_BUY]

/-- C5 witness: the amended theorem applied to the two-level test book with a
buy of 50 ≤ 150 = 100*(1/2) + 200*(1/2). -/
theorem c5_l1_execute_order_witness :
    ((executeOrder l1WitGw ⟨"BTCUSDT", 50, 1, 0, 0⟩).filled_quantity +
        (executeOrder l1WitGw ⟨"BTCUSDT", 50, 1, 0, 0⟩).unfilled =
      (⟨"BTCUSDT", 50, 1, 0, 0⟩ : OrderRequest).quantity) ∧
    ((executeOrder l1WitGw ⟨"BTCUSDT", 50, 1, 0, 0⟩).filled_quantity =
        (⟨"BTCUSDT", 50, 1, 0, 0⟩ : OrderRequest).quantity ∧
      (executeOrder l1WitGw ⟨"BTCUSDT", 50, 1, 0, 0⟩).unfilled = 0) :=
  ⟨(c5_l1_execute_order l1WitGw ⟨"BTCUSDT", 50, 1, 0, 0⟩).1,
    (c5_l1_execute_order l1WitGw ⟨"BTCUSDT", 50, 1, 0, 0⟩).2.2 (by norm_num)
      (by norm_num [l1WitGw])
      (by norm_num [l1WitGw, DIRECTION_BUY, List.takeWhile])⟩

/-- C10: for both simulated gateways, whenever submit_order returns an error
the gateway state (balance, positions, pending fills, stored prices, next
order id, timestamp) is returned unchanged; and for the simple gateway the
error is InvalidOrder exactly on a non-positive quantity or a direction other
than +1 or -1, or InsufficientFunds on a Buy against a non-negative existing
position whose cost (trade value plus commission) exceeds the balance. -/
theorem c10_error_leaves_state_unchanged (g : SimGateway) (gl : L1Gateway)
    (order : OrderRequest) (p : ℚ) :
    (∀ e, (submitOrder g order p).1 = .error e → (submitOrder g order p).2 = g) ∧
    (∀ e, (l1SubmitOrder gl order p).1 = .error e → (l1SubmitOrder gl order p).2 = gl) ∧
    (∀ e, (submitOrder g order p).1 = .error e →
      (e = .invalidOrder ∧ (order.quantity ≤ 0 ∨
        (order.direction ≠ DIRECTION_BUY ∧ order.direction ≠ DIRECTION_SELL))) ∨
      (e = .insufficientFunds ∧ order.direction = DIRECTION_BUY ∧
        0 ≤ ((getPos g.positions order.symbol).map (·.quantity)).getD 0 ∧
        g.balance < order.quantity * calculateFillPrice g p order.direction +
          calculateCommission g (order.quantity * calculateFillPrice g p order.direction))) := by
  refine ⟨?_, ?_, ?_⟩
  · intro e he
    simp only [submitOrder] at he ⊢
    split_ifs at he ⊢ <;> rfl
  · intro e he
    simp only [l1SubmitOrder] at he ⊢
    split_ifs at he ⊢ <;> rfl
  · intro e he
    simp only [submitOrder] at he
    split_ifs at he with h1 h2 h3
    · simp only [Except.error.injEq] at he
      exact Or.inl ⟨he.symm, Or.inl h1⟩
    · simp only [Except.error.injEq] at he
      exact Or.inl ⟨he.symm, Or.inr h2⟩
    · simp only [Except.error.injEq] at he
      exact Or.inr ⟨he.symm, h3⟩

/-- C10 witness: a rejected order (quantity -1) leaves both a fresh simple
gateway and a fresh L1 gateway untouched. -/
theorem c10_error_leaves_state_unchanged_witness :
    (submitOrder (mkSimGateway 100 0 0) ⟨"BTCUSDT", -1, 1, 0, 0⟩ 10).2 =
      mkSimGateway 100 0 0 ∧
    (l1SubmitOrder ⟨[], [], ⟨0, 0, 0⟩, 0, 1/2, [], [], 100, 100, 1, [], 0⟩
        ⟨"BTCUSDT", -1, 1, 0, 0⟩ 10).2 =
      ⟨[], [], ⟨0, 0, 0⟩, 0, 1/2, [], [], 100, 100, 1, [], 0⟩ :=
  ⟨(c10_error_leaves_state_unchanged (mkSimGateway 100 0 0)
      ⟨[], [], ⟨0, 0, 0⟩, 0, 1/2, [], [], 100, 100, 1, [], 0⟩
      ⟨"BTCUSDT", -1, 1, 0, 0⟩ 10).1 .invalidOrder
      (by norm_num [submitOrder]),
    (c10_error_leaves_state_unchanged (mkSimGateway 100 0 0)
      ⟨[], [], ⟨0, 0, 0⟩, 0, 1/2, [], [], 100, 100, 1, [], 0⟩
      ⟨"BTCUSDT", -1, 1, 0, 0⟩ 10).2.1 .invalidOrder
      (by norm_num [l1SubmitOrder])⟩

theorem evictOld_eq_dropWhile (cutoff : ℚ) (l : List ℚ) :
    evictOld cutoff l = l.dropWhile (fun t => decide (t < cutoff)) := by
  induction l with
  | nil => rfl
  | cons t rest ih =>
    by_cases h : t < cutoff
    · rw [evictOld, if_pos h, List.dropWhile_cons_of_pos (by simpa using h)]
      exact ih
    · rw [evictOld, if_neg h, List.dropWhile_cons_of_neg (by simpa using h)]

theorem evictOld_of_head_ge (cutoff : ℚ) (l : List ℚ)
    (h : ∀ x ∈ l.head?, cutoff ≤ x) : evictOld cutoff l = l := by
  cases l with
  | nil => rfl
  | cons t rest =>
    have ht : cutoff ≤ t := h t rfl
    rw [evictOld, if_neg (not_lt.2 ht)]

theorem throttleSeq_fills (r : Nat) :
    ∀ (suf pre : List ℚ) (tN : ℚ),
    pre.length + suf.length ≤ r →
    (∀ x ∈ pre, tN - 1 ≤ x) → (∀ x ∈ suf, tN - 1 ≤ x) →
    (∀ x ∈ suf, x ≤ tN) →
    throttleSeq (r : Int) pre suf = some (pre ++ suf) := by
  intro suf
  induction suf with
  | nil =>
    intro pre tN _ _ _ _
    simp [throttleSeq]
  | cons t rest ih =>
    intro pre tN hlen hpre hsuf hle
    have htN : t ≤ tN := hle t (by simp)
    have hev : evictOld (t - 1) pre = pre := by
      apply evictOld_of_head_ge
      intro x hx
      have hxmem : x ∈ pre := List.mem_of_mem_head? hx
      have := hpre x hxmem
      linarith
    have hcount : ¬ ((r : Int) ≤ (pre.length : Int)) := by
      simp only [List.length_cons] at hlen
      omega
    have hstep : checkThrottle (r : Int) pre t = (.ok (), pre ++ [t]) := by
      simp only [checkThrottle, hev, if_neg hcount]
    have happ := ih (pre ++ [t]) tN
      (by simp only [List.length_append, List.length_cons, List.length_nil] at hlen ⊢; omega)
      (by intro x hx
          rcases List.mem_append.1 hx with hx | hx
          · exact hpre x hx
          · simp only [List.mem_singleton] at hx
            subst hx
            exact hsuf x (by simp))
      (by intro x hx; exact hsuf x (List.mem_cons_of_mem _ hx))
      (by intro x hx; exact hle x (List.mem_cons_of_mem _ hx))
    simp only [throttleSeq, hstep]
    rw [happ]
    simp

/-- C4: for max_order_rate r > 0, if check_throttle is called at r instants
that all lie within one second of a further instant tNext (so that the sliding
window holds all r timestamps), all r calls succeed from an empty window and
leave exactly those r timestamps queued; the (r+1)-th call at tNext then fails
with ThrottleExceeded{current = r, max = r} and records no new timestamp.  In
addition the eviction loop of each call removes exactly the front entries
older than one second (dropWhile). -/
theorem c4_throttle_window (r : Nat) (_hr : 0 < r) (ts : List ℚ) (tNext : ℚ)
    (hlen : ts.length = r)
    (hwin : ∀ x ∈ ts, tNext - 1 ≤ x)
    (hle : ∀ x ∈ ts, x ≤ tNext) :
    throttleSeq (r : Int) [] ts = some ts ∧
    checkThrottle (r : Int) ts tNext =
      (.error (.throttleExceeded (r : Int) (r : Int)), ts) ∧
    (∀ cutoff l, evictOld cutoff l = l.dropWhile (fun t => decide (t < cutoff))) := by
  refine ⟨?_, ?_, evictOld_eq_dropWhile⟩
  · have := throttleSeq_fills r ts [] tNext (by simpa using hlen.le)
      (by intro x hx; simp at hx) hwin hle
    simpa using this
  · have hev : evictOld (tNext - 1) ts = ts := by
      apply evictOld_of_head_ge
      intro x hx
      exact hwin x (List.mem_of_mem_head? hx)
    have hcount : (r : Int) ≤ ((ts.length : Nat) : Int) := by
      rw [hlen]
    simp only [checkThrottle, hev, hlen]
    rw [if_pos le_rfl]

/-- C4 witness: r = 2 calls at instants 0 within one second of a third call,
then the third call fails with ThrottleExceeded and leaves the queue as is. -/
theorem c4_throttle_window_witness :
    throttleSeq ((2 : Nat) : Int) [] [0, 0] = some [0, 0] ∧
    checkThrottle ((2 : Nat) : Int) [0, 0] 0 =
      (.error (.throttleExceeded ((2 : Nat) : Int) ((2 : Nat) : Int)), [0, 0]) ∧
    (∀ cutoff l, evictOld cutoff l = l.dropWhile (fun t => decide (t < cutoff))) :=
  c4_throttle_window 2 (by decide) [0, 0] 0 (by decide)
    (by intro x hx; simp at hx; rw [hx]; norm_num)
    (by intro x hx; simp at hx; rw [hx])

theorem processLoop_spec (cur : Int) (l : List TimerEntry) :
    (processLoop cur l).1 =
      (l.filter (fun e => e.shouldFire cur)).map (fun e => ⟨e.id, cur⟩) ∧
    (processLoop cur l).2.filter (·.active) =
      l.filterMap (fun e =>
        if e.shouldFire cur then
          (if e.repeating ∧ 0 < e.interval_ms then
            some { e with next_trigger_ms := e.next_trigger_ms + (e.interval_ms : Int) }
          else none)
        else (if e.active then some e else none)) := by
  induction l with
  | nil => exact ⟨rfl, rfl⟩
  | cons t rest ih =>
    obtain ⟨ih1, ih2⟩ := ih
    by_cases hf : t.shouldFire cur
    · have hact : t.active = true := by
        have hh := hf
        simp only [TimerEntry.shouldFire, Bool.and_eq_true] at hh
        exact hh.1
      refine ⟨?_, ?_⟩
      · simp [processLoop, List.filter_cons, hf, ih1]
      · by_cases hrep : t.repeating ∧ 0 < t.interval_ms
        · simp [processLoop, TimerEntry.advance, List.filter_cons, List.filterMap_cons,
            hf, hact, hrep, ih2]
        · simp [processLoop, TimerEntry.advance, List.filter_cons, List.filterMap_cons,
            hf, hrep, ih2]
    · refine ⟨?_, ?_⟩
      · simp [processLoop, List.filter_cons, hf, ih1]
      · by_cases hact : t.active = true
        · simp [processLoop, List.filter_cons, List.filterMap_cons, hf, hact, ih2]
        · simp only [Bool.not_eq_true] at hact
          simp [processLoop, List.filter_cons, List.filterMap_cons, hf, hact, ih2]

/-- C8 (corrected, amended form): process(t) emits exactly one Timer event for
each active entry with next_trigger_ms ≤ t (in list order) and none for any
other entry; afterwards every fired one-shot entry and every fired repeating
entry with interval 0 is deactivated and removed, every fired repeating entry
with a positive interval has its next trigger advanced by its interval,
every unfired active entry is kept unchanged, and cancelled (inactive) entries
produce no event and are dropped. -/
theorem c8_timer_process (m : TimerManager) (t : Int) :
    (m.process t).1 =
      (m.timers.filter (fun e => e.shouldFire t)).map (fun e => ⟨e.id, t⟩) ∧
    (m.process t).2.timers = m.timers.filterMap (fun e =>
      if e.shouldFire t then
        (if e.repeating ∧ 0 < e.interval_ms then
          some { e with next_trigger_ms := e.next_trigger_ms + (e.interval_ms : Int) }
        else none)
      else (if e.active then some e else none)) ∧
    (m.process t).2.current_time_ms = t := by
  obtain ⟨h1, h2⟩ := processLoop_spec t m.timers
  exact ⟨h1, h2, rfl⟩

/-- C8 counterexample: schedule_repeating(0) at time 0 yields a repeating
entry with interval 0 and next trigger 0; process(0) fires it once and then
REMOVES it (advance deactivates on zero interval), whereas the claim says a
fired repeating entry keeps its next trigger advanced by its interval. -/
theorem c8_counterexample_zero_interval :
    ((⟨[], 0⟩ : TimerManager).schedRepeating 1 0).timers =
      [⟨1, 0, 0, true, true⟩] ∧
    (((⟨[], 0⟩ : TimerManager).schedRepeating 1 0).process 0).1 = [⟨1, 0⟩] ∧
    (((⟨[], 0⟩ : TimerManager).schedRepeating 1 0).process 0).2.timers = [] := by
  decide

/-- C7 (code bug): whatever engine state is run and however the float square
root and the wall clock behave, a successful `run()` always reports
`actual_start_bar = 0` (engine.rs line 258 hard-codes 0 with a TODO comment),
while `WarmupManager::actual_start_bar` — and the claim — give `max(k, 0)` for
`warmup_bars = k`. -/
theorem c7_actual_start_bar_is_zero :
    (∀ (sqrtf : ℚ → ℚ) (clock : Nat → ℚ) (e : EngineState) (r : BacktestResult),
      engineRun sqrtf clock e = .ok r → r.actual_start_bar = 0) ∧
    (∀ k : Int, ((WarmupManager.mkNew k).actualStartBar : Int) = max k 0) := by
  constructor
  · intro sqrtf clock e r h
    simp only [engineRun] at h
    split at h
    · exact absurd h (by simp)
    · split at h
      · exact absurd h (by simp)
      · simp only [Except.ok.injEq] at h
        rw [← h]
  · intro k
    simp only [WarmupManager.mkNew, WarmupManager.actualStartBar]
    exact Int.toNat_eq_max k

/-- C7 witness: the demo engine has warmup_bars = 5 and three loaded ticks;
run() succeeds and reports actual_start_bar = 0, although the claim — matching
WarmupManager::actual_start_bar — expects max(5, 0) = 5. -/
theorem c7_actual_start_bar_is_zero_witness :
    engineRun (fun q => q) (fun _ => 0) engDemo =
      .ok ⟨100000, 0, 0, 0, 0, 0, 0, 0, 0⟩ ∧
    (⟨100000, 0, 0, 0, 0, 0, 0, 0, 0⟩ : BacktestResult).actual_start_bar = 0 ∧
    ((WarmupManager.mkNew 5).actualStartBar : Int) = max 5 0 ∧
    engDemo.params.warmup_bars = 5 := by
  have h : engineRun (fun q => q) (fun _ => 0) engDemo =
      .ok ⟨100000, 0, 0, 0, 0, 0, 0, 0, 0⟩ := by
    norm_num [engineRun, engDemo, mkEngine, loadDataFromVectors, loadFromVectors, cleanseStep,
      tsStale, isAnomalyB, fabs, runLoop, processTick, DualMAStrategy.onTick,
      DualMAStrategy.reset, maOf, generateOrder, queryAccount, totalUnrealized, totalRealized,
      calcUnrealized, lookupA, updatePrice, setTimestamp, insertA, mkSimGateway,
      calcMaxDrawdown, ddFold, calcSharpe, RiskManagerState.initEquity,
      RiskManagerState.updateEquity, List.find?, CState.addInvalid,
      Except.toOption, Option.getD, List.isEmpty]
  refine ⟨h, c7_actual_start_bar_is_zero.1 (fun q => q) (fun _ => 0) engDemo _ h, ?_, ?_⟩
  · exact c7_actual_start_bar_is_zero.2 5
  · norm_num [engDemo, mkEngine, loadDataFromVectors, loadFromVectors, cleanseStep,
      tsStale, isAnomalyB, fabs, RiskManagerState.initEquity, Except.toOption, Option.getD,
      CState.addInvalid]

/-- Helper: the Buy signal is distinct from NoSignal (used to reduce
signal dispatch during concrete evaluation). -/
theorem signal_buy_ne_nosig : ¬ (Signal.buy = Signal.nosig) := by decide

/-- Helper: the Sell signal is distinct from NoSignal. -/
theorem signal_sell_ne_nosig : ¬ (Signal.sell = Signal.nosig) := by decide

/-- Helper: when generate_combinations yields a single parameter set, the
parameter sweep is exactly the (possibly empty) singleton produced by
run_single_backtest on that parameter set. -/
theorem runParameterSweep_singleton (sqrtf : ℚ → ℚ) (clocks : StrategyParams → Nat → ℚ)
    (cfg : RiskConfig) (bal : ℚ) (sym : String) (ticks : List Tick)
    (range : ParameterRange) (p0 : StrategyParams)
    (hc : generateCombinations range = [p0]) :
    runParameterSweep sqrtf clocks cfg bal sym ticks range =
      ((runSingleBacktest sqrtf (clocks p0) cfg bal sym p0 (ticks.map (·.timestamp))
          (ticks.map (fun t => some t.price)) (ticks.map (fun t => some t.volume))).map
        (fun r => (p0, r))).toList := by
  simp only [runParameterSweep, hc]
  cases h : runSingleBacktest sqrtf (clocks p0) cfg bal sym p0 (ticks.map (·.timestamp))
      (ticks.map (fun t => some t.price)) (ticks.map (fun t => some t.volume)) <;>
    simp [h]

set_option maxHeartbeats 3000000 in
/-- C9 (code bug): Optimizer::run_parameter_sweep is a pure map of
run_single_backtest over generate_combinations — the engines share no state —
but each engine's RiskManager::check_throttle reads the wall clock
(Instant::now()) on every submitted order, so the per-combination results are
not a function of the (ticks, range) inputs alone. Modelling the clock
readings of each engine as an explicit assignment: on the same five ticks and
the same range (producing the single combination short_ma = 1, long_ma = 2,
position_size = 100) with max_order_rate = 1 per second, a sweep whose engines
observe all readings at time 0 reports total_trades = 1 (the second and third
crossings are throttled away), while a sweep whose engines observe readings
2 s apart reports total_trades = 3 for the same combination. Two runs of the
sweep on identical inputs can thus disagree on total_trades, contradicting the
claim that every per-combination field, including total_trades, matches
exactly across runs. -/
theorem c9_sweep_clock_dependent :
    ((runParameterSweep (fun q => q) clockSame sweepCfg 100000 "BTCUSDT" sweepTicks
        sweepRange).map
      (fun pr => (pr.1.short_ma_period, pr.1.long_ma_period, pr.2.total_trades)) =
      [(1, 2, 1)]) ∧
    ((runParameterSweep (fun q => q) clockSpread sweepCfg 100000 "BTCUSDT" sweepTicks
        sweepRange).map
      (fun pr => (pr.1.short_ma_period, pr.1.long_ma_period, pr.2.total_trades)) =
      [(1, 2, 3)]) := by
  have hc : generateCombinations sweepRange = [⟨1, 2, 100, 1/50, 1/20, 0⟩] := by
    norm_num [generateCombinations, sweepRange, rangeSteps, rangeStepsAux, positionSizes]
  constructor <;>
  · rw [runParameterSweep_singleton _ _ _ _ _ _ _ _ hc]
    norm_num [runSingleBacktest, withInitialBalance, withSymbol, sweepCfg, mkEngine,
      loadDataFromVectors, loadFromVectors, cleanseStep, tsStale, isAnomalyB, fabs,
      engineRun, runLoop, processTick, DualMAStrategy.onTick, DualMAStrategy.reset, maOf,
      generateOrder, riskCheck, checkCapital, checkThrottle, evictOld, checkPositionLimit,
      checkDrawdown, RiskManagerState.initEquity, RiskManagerState.updateEquity, submitOrder,
      calculateFillPrice, calculateCommission, getPos, setPos, insertA, buyUpdate, sellUpdate,
      getFills, classifyFills, queryPositionRealized, queryAccount, totalUnrealized,
      totalRealized, calcUnrealized, lookupA, updatePrice, setTimestamp, mkSimGateway,
      calcMaxDrawdown, ddFold, calcSharpe, CState.addInvalid, Except.toOption, Option.getD,
      Option.toList, sweepTicks, clockSame, clockSpread,
      List.isEmpty, List.find?, List.foldl, List.take, List.sum, Int.toNat,
      signal_buy_ne_nosig, signal_sell_ne_nosig, DIRECTION_BUY, DIRECTION_SELL]

end AegisQuant
